import Mathlib

/-!
Shallow embedding of `src/arvados_platform.py` (golharam/PAML).

The Python module is a thin adapter over the Arvados REST API.  We model the
remote server as an explicit `ApiState` (collections, workflows, and the file
contents of each collection keyed by collection uuid) and translate each
Python method into a Lean function that threads this state.  Python calls
that can raise are translated to `Except`/`Option` results; a raised Python
exception that escapes a method is an `Except.error` carrying the message.
-/

/-- JSON-like values, the payloads carried by task handles. -/
inductive JVal where
  | null : JVal
  | str : String → JVal
  | obj : List (String × JVal) → JVal

/-- Embeds class `ArvadosTask`: a pairing of a `container_request` record and
a `container` record (src/arvados_platform.py lines 15-33). -/
structure ArvadosTask where
  container_request : JVal
  container : JVal

/-- Embeds `ArvadosTask.to_dict` (lines 23-28): the mapping with the two keys. -/
def ArvadosTask.to_dict (t : ArvadosTask) : List (String × JVal) :=
  [("container_request", t.container_request), ("container", t.container)]

/-- Embeds `ArvadosTask.from_dict` (lines 30-33).  Python indexing
`task_dict['container_request']` raises `KeyError` when the key is missing;
that case is `none`. -/
def ArvadosTask.from_dict (task_dict : List (String × JVal)) : Option ArvadosTask :=
  match task_dict.lookup "container_request", task_dict.lookup "container" with
  | some cr, some c => some ⟨cr, c⟩
  | _, _ => none

/-- Embeds `arvados_task_decoder` (lines 44-49): converts a mapping holding
both keys into an `ArvadosTask`, returns any other mapping unchanged. -/
def arvados_task_decoder (obj : List (String × JVal)) : ArvadosTask ⊕ List (String × JVal) :=
  match obj.lookup "container_request", obj.lookup "container" with
  | some cr, some c => Sum.inl ⟨cr, c⟩
  | _, _ => Sum.inr obj

/-- An Arvados project (group); the code only reads `project["uuid"]`. -/
structure Project where
  uuid : String

/-- An Arvados collection record, with the fields the module reads. -/
structure Collection where
  uuid : String
  owner_uuid : String
  name : String
  description : String
  portable_data_hash : String

/-- An Arvados workflow record; `definition` stands for the body fields that
are cloned verbatim when a workflow is copied. -/
structure Workflow where
  uuid : String
  owner_uuid : String
  name : String
  definition : String

/-- A file inside a collection: its stream (directory) name, its file name,
and its content. -/
structure AFile where
  stream : String
  name : String
  content : String
deriving DecidableEq

/-- The remote Arvados server state: the collection and workflow registries,
the files of each collection (keyed by collection uuid), and a counter used
to mint the uuids the server assigns to created records. -/
structure ApiState where
  collections : List Collection
  workflows : List Workflow
  files : String → List AFile
  fresh : Nat

/-- Python `str.startswith(pre)`: literal prefix test on characters. -/
def pyStartswith (s pre : String) : Bool :=
  List.isPrefixOf pre.data s.data

/-- Python `str.split(sep)` for a one-character separator. -/
def pySplitChar (s : String) (sep : Char) : List String :=
  (s.data.splitOn sep).map (fun cs => String.mk cs)

/-- Python `sep.join(parts)`. -/
def pyJoin (sep : String) (parts : List String) : String :=
  String.mk (List.intercalate sep.data (parts.map String.data))

/-- Helper for the `%` wildcard of SQL LIKE: `likeSkip k s` holds when the
continuation `k` accepts some suffix of `s` (the wildcard consumes the
skipped prefix). -/
def likeSkip (k : List Char → Bool) : List Char → Bool
  | [] => k []
  | c :: s => k (c :: s) || likeSkip k s

/-- SQL LIKE pattern matching, the semantics of the Arvados API `like`
filter operator used in `copy_workflow`: `%` matches any (possibly empty)
character sequence, `_` matches exactly one character, every other pattern
character matches itself. -/
def likeMatch : List Char → List Char → Bool
  | [], s => s.isEmpty
  | c :: ps, s =>
    if c = '%' then likeSkip (likeMatch ps) s
    else
      match s with
      | [] => false
      | c2 :: s2 => (c = '_' || c = c2) && likeMatch ps s2

/-- Helper for the regex model: the character slice `[i, j)` of `s` holds no
newline (Python `.` does not match a newline). -/
def noNewlineBetween (s : List Char) (i j : Nat) : Bool :=
  ((s.drop i).take (j - i)).all (fun c => c ≠ '\n')

/-- Position of the closing parenthesis demanded by `\)$` in the pattern
`' \(.*\)$'`: Python `$` matches at the end of the string or just before a
trailing newline. -/
def closeParenPos (s : List Char) : Option Nat :=
  if s.getLast? = some ')' then some (s.length - 1)
  else if s.getLast? = some '\n' ∧ s.dropLast.getLast? = some ')' then
    some (s.length - 2)
  else none

/-- The pattern `' \(.*\)$'` matches at position `i` with its closing
parenthesis at position `p`. -/
def gitVersionMatchAt (s : List Char) (p i : Nat) : Bool :=
  decide (i + 2 ≤ p) && decide (s.getD i 'x' = ' ') &&
    decide (s.getD (i + 1) 'x' = '(') && noNewlineBetween s (i + 2) p

/-- Embeds `re.search(r' \(.*\)$', wf_name)` (line 198): the start position
of the leftmost match, if any. -/
def reSearchGitVersion (s : List Char) : Option Nat :=
  match closeParenPos s with
  | none => none
  | some p => (List.range s.length).find? (fun i => gitVersionMatchAt s p i)

/-- Embeds lines 196-201 of `copy_workflow`: strip a trailing `" (...)"`
version annotation from a workflow name, when present. -/
def strip_git_version (wf_name : String) : String :=
  match reSearchGitVersion wf_name.data with
  | none => wf_name
  | some i => String.mk (wf_name.data.take i)

/-- A file with stream `s` and name `n` exists in the file list `t`. -/
def pathMemB (t : List AFile) (s n : String) : Bool :=
  t.any (fun g => g.stream = s && g.name = n)

/-- Embeds one `target.copy(target_path, target_path=target_path,
source_collection=source, overwrite=overwrite)` call (lines 94-97) together
with the surrounding `except IOError: continue`: when the target already has
a file at the path and `overwrite` is false, the SDK raises `IOError` and the
loop swallows it, leaving the target unchanged; with `overwrite` true the
file is replaced; otherwise the file is added. -/
def copyOneFile (target : List AFile) (f : AFile) (overwrite : Bool) : List AFile :=
  if pathMemB target f.stream f.name then
    if overwrite then
      target.map (fun g => if g.stream = f.stream ∧ g.name = f.name then f else g)
    else target
  else target ++ [f]

/-- Embeds `_copy_files_from_source_dest_collection` (lines 72-100): iterate
over the source collection's files, skip the two reserved names, copy each
remaining file to the same stream path in the target, and return the saved
target contents. -/
def copy_files_from_source_dest_collection (source target : List AFile)
    (overwrite : Bool) : List AFile :=
  match source with
  | [] => target
  | res_file :: rest =>
    if res_file.name = "cwl.input.json" ∨ res_file.name = "cwl.output.json" then
      copy_files_from_source_dest_collection rest target overwrite
    else
      copy_files_from_source_dest_collection rest (copyOneFile target res_file overwrite)
        overwrite

/-- Embeds `self.api.collections().list(filters=[["owner_uuid","=",owner],
["name","=",name]]).execute()['items']`. -/
def listCollections (st : ApiState) (owner name : String) : List Collection :=
  st.collections.filter (fun c => c.owner_uuid == owner && c.name == name)

/-- Runs `copy_files_from_source_dest_collection` between two collections of
the state (overwrite defaults to `False` at both call sites) and persists the
target via `target.save()`. -/
def copyFilesInState (st : ApiState) (source_uuid dest_uuid : String) : ApiState :=
  { st with files := fun u =>
      if u = dest_uuid then
        copy_files_from_source_dest_collection (st.files source_uuid) (st.files dest_uuid) false
      else st.files u }

/-- Embeds `self.api.collections().create(body=...).execute()`: the server
mints a fresh uuid and portable data hash for the new collection. -/
def createCollection (st : ApiState) (owner name description : String) :
    ApiState × Collection :=
  let c : Collection :=
    { uuid := "col-" ++ toString st.fresh
      owner_uuid := owner
      name := name
      description := description
      portable_data_hash := "pdh-" ++ toString st.fresh }
  ({ st with collections := st.collections ++ [c], fresh := st.fresh + 1 }, c)

/-- Embeds lines 116-120 of `copy_folder`: the first element of the
`reference_folder` path is the name of the collection. -/
def folderCollectionName (reference_folder : String) : String :=
  if pyStartswith reference_folder "/" then (pySplitChar reference_folder '/').getD 1 ""
  else (pySplitChar reference_folder '/').getD 0 ""

/-- Embeds `copy_folder` (lines 107-147): resolve the collection name from
the first path segment, look it up in the reference project (returning `none`
when absent), find or create the same-named collection in the destination
project, copy the files over, and return the destination collection. -/
def copy_folder (st : ApiState) (reference_project : Project)
    (reference_folder : String) (destination_project : Project) :
    ApiState × Option Collection :=
  let collection_name := folderCollectionName reference_folder
  match (listCollections st reference_project.uuid collection_name).head? with
  | none => (st, none)
  | some reference_collection =>
    match (listCollections st destination_project.uuid collection_name).head? with
    | some destination_collection =>
      (copyFilesInState st reference_collection.uuid destination_collection.uuid,
       some destination_collection)
    | none =>
      let (st1, destination_collection) :=
        createCollection st destination_project.uuid collection_name
          reference_collection.description
      (copyFilesInState st1 reference_collection.uuid destination_collection.uuid,
       some destination_collection)

/-- Embeds `copy_reference_data` (lines 149-179).  The Python function
returns `None` on every path (the early `return None` and the implicit fall
through), so only the state is modeled. -/
def copy_reference_data (st : ApiState) (reference_project destination_project : Project) :
    ApiState :=
  match (listCollections st reference_project.uuid "reference_input").head? with
  | none => st
  | some reference_input_collection =>
    match (listCollections st destination_project.uuid reference_input_collection.name).head? with
    | some destination_input_collection =>
      copyFilesInState st reference_input_collection.uuid destination_input_collection.uuid
    | none =>
      let (st1, destination_input_collection) :=
        createCollection st destination_project.uuid reference_input_collection.name
          reference_input_collection.description
      copyFilesInState st1 reference_input_collection.uuid destination_input_collection.uuid

/-- Embeds `self.api.workflows().get(uuid=...).execute()` (line 192): fetch
by uuid; an absent uuid raises `arvados.errors.ApiError`, modeled as `none`. -/
def fetchWorkflow (st : ApiState) (uuid : String) : Option Workflow :=
  st.workflows.find? (fun w => w.uuid == uuid)

/-- The destination-project search of `copy_workflow` (lines 205-208):
workflows owned by the destination whose name matches the SQL LIKE pattern
`wf_name%`. -/
def destWorkflowMatches (st : ApiState) (destination_project : Project)
    (wf_name : String) : List Workflow :=
  st.workflows.filter (fun w =>
    w.owner_uuid == destination_project.uuid &&
      likeMatch (wf_name.data ++ ['%']) w.name.data)

/-- Embeds `self.api.workflows().create(body=workflow).execute()` after
`workflow['owner_uuid'] = ...; del workflow['uuid']` (lines 214-216 and
234-236): the server assigns a fresh uuid to the clone. -/
def createWorkflow (st : ApiState) (owner : String) (w : Workflow) :
    ApiState × Workflow :=
  let c : Workflow :=
    { uuid := "wf-" ++ toString st.fresh
      owner_uuid := owner
      name := w.name
      definition := w.definition }
  ({ st with workflows := st.workflows ++ [c], fresh := st.fresh + 1 }, c)

/-- Embeds `copy_workflow` (lines 181-217): fetch the source workflow
(`none` on API error), strip the trailing version annotation from its name,
return the first destination workflow whose name LIKE-matches `wf_name%` if
one exists, otherwise clone the workflow into the destination project. -/
def copy_workflow (st : ApiState) (src_workflow : String)
    (destination_project : Project) : ApiState × Option Workflow :=
  match fetchWorkflow st src_workflow with
  | none => (st, none)
  | some workflow =>
    let wf_name := strip_git_version workflow.name
    match (destWorkflowMatches st destination_project wf_name).head? with
    | some existing => (st, some existing)
    | none =>
      let (st1, copied_workflow) := createWorkflow st destination_project.uuid workflow
      (st1, some copied_workflow)

/-- Embeds `self.api.workflows().list(filters=[["owner_uuid","=",owner]])
.execute()['items']`. -/
def listWorkflowsByOwner (st : ApiState) (owner : String) : List Workflow :=
  st.workflows.filter (fun w => w.owner_uuid == owner)

/-- The loop of `copy_workflows` (lines 232-236).  `destination_workflows`
is the deserialized JSON response of the list call — a Python `dict` — so
`destination_workflows.append(...)` raises `AttributeError`.  Python
resolves the `.append` attribute before evaluating the argument of the
call, so the `create(...)` inside the argument never executes: at the first
reference workflow whose name is missing, the exception escapes with the
server state unchanged. -/
def copyWorkflowsLoop (st : ApiState) (destination_project : Project)
    (dest_names : List String) : List Workflow → ApiState × Except String Unit
  | [] => (st, Except.ok ())
  | wf :: rest =>
    if wf.name ∈ dest_names then copyWorkflowsLoop st destination_project dest_names rest
    else (st, Except.error "AttributeError: dict object has no attribute append")

/-- Embeds `copy_workflows` (lines 219-237): list both projects' workflows,
then run the copy loop; on a full pass it returns the destination listing's
items. -/
def copy_workflows (st : ApiState) (reference_project destination_project : Project) :
    ApiState × Except String (List Workflow) :=
  let reference_workflows := listWorkflowsByOwner st reference_project.uuid
  let destination_workflows := listWorkflowsByOwner st destination_project.uuid
  match copyWorkflowsLoop st destination_project
      (destination_workflows.map (fun w => w.name)) reference_workflows with
  | (st1, Except.ok _) => (st1, Except.ok destination_workflows)
  | (st1, Except.error e) => (st1, Except.error e)

/-- Embeds `get_file_id` (lines 252-281): pass through paths that start with
`http` or `keep`; otherwise treat the first path segment as a collection
name, resolve it in the project, and build a `keep:` hash-addressed
reference; raise when the collection is absent. -/
def get_file_id (st : ApiState) (project : Project) (file_path : String) :
    Except String String :=
  if pyStartswith file_path "http" || pyStartswith file_path "keep" then
    Except.ok file_path
  else
    let folder_tree := pySplitChar file_path '/'
    let folder_tree := if folder_tree.headD "x" = "" then folder_tree.tail else folder_tree
    match folder_tree with
    | [] => Except.error "IndexError: list index out of range"
    | collection_name :: rest =>
      match (listCollections st project.uuid collection_name).head? with
      | some collection =>
        Except.ok ("keep:" ++ collection.portable_data_hash ++ "/" ++ pyJoin "/" rest)
      | none =>
        Except.error ("Collection " ++ collection_name ++ " not found in project "
          ++ project.uuid)

/-- The execution (container) record fields read by `get_task_state`:
`exit_code` is `null` until the container finishes. -/
structure Container where
  exit_code : Option Int
  state : String

/-- Embeds the state derivation of `get_task_state` (lines 317-327), the
`refresh=False` path, evaluated on the task's container record. -/
def get_task_state (container : Container) : Except String String :=
  if container.exit_code = some 0 then Except.ok "Complete"
  else if container.exit_code = some 1 then Except.ok "Failed"
  else if container.state = "Running" then Except.ok "Running"
  else if container.state = "Cancelled" then Except.ok "Cancelled"
  else if container.state = "Locked" ∨ container.state = "Queued" then Except.ok "Queued"
  else Except.error ("TODO: Unknown task state: " ++ container.state)

/-- Outcome of the external `arvados-cwl-runner` invocation (lines 404-414):
success with the combined output text, a non-zero exit
(`subprocess.CalledProcessError`), or an `IOError`. -/
inductive RunnerResult where
  | ok (output : String)
  | calledProcessError (returncode : Int) (output : String)
  | ioError (msg : String)

/-- Embeds `submit_task` (lines 389-415) with the opaque external runner
abstracted by its outcome.  On success the last non-empty output line
becomes the container-request uuid of a task whose container is `null`; an
empty output makes the Python `[-1]` indexing raise an uncaught
`IndexError`; the two caught exception classes are logged and turn into a
`None` return. -/
def submit_task (runner : RunnerResult) : Except String (Option ArvadosTask) :=
  match runner with
  | RunnerResult.ok output =>
    match ((pySplitChar output '\n').filter (fun l => l ≠ "")).getLast? with
    | some container_request_uuid =>
      Except.ok (some ⟨JVal.obj [("uuid", JVal.str container_request_uuid)], JVal.null⟩)
    | none => Except.error "IndexError: list index out of range"
  | RunnerResult.calledProcessError _ _ => Except.ok none
  | RunnerResult.ioError _ => Except.ok none

/-- Specification of one `copy_workflows` invocation on state `s`: the
state is never changed (the `AttributeError` at the `dict.append` attribute
lookup is raised before the `create` argument is evaluated, so no clone is
ever made); the call returns the destination listing when every reference
workflow name is already present among the destination's workflows, and
raises the `AttributeError` when some reference name is missing. -/
def copyWorkflowsCallSpec (s : ApiState) (ref dest : Project)
    (r : ApiState × Except String (List Workflow)) : Prop :=
  r.1 = s
  ∧ ((r.2 = Except.ok (listWorkflowsByOwner s dest.uuid)
        ∧ ∀ w ∈ listWorkflowsByOwner s ref.uuid,
            w.name ∈ (listWorkflowsByOwner s dest.uuid).map Workflow.name)
     ∨ (r.2 = Except.error "AttributeError: dict object has no attribute append"
        ∧ ∃ w ∈ listWorkflowsByOwner s ref.uuid,
            w.name ∉ (listWorkflowsByOwner s dest.uuid).map Workflow.name))

/-- A continuation that accepts the whole string also lets `likeSkip`
succeed (the wildcard consumes nothing). -/
theorem likeSkip_of_apply (k : List Char → Bool) (s : List Char) (h : k s = true) :
    likeSkip k s = true := by
  cases s with
  | nil => simpa [likeSkip] using h
  | cons c s => simp [likeSkip, h]

/-- A lone `%` pattern matches every string. -/
theorem likeMatch_percent_any (t : List Char) : likeMatch ['%'] t = true := by
  induction t with
  | nil => rfl
  | cons c t ih =>
    simp only [likeMatch, likeSkip, if_pos] at ih ⊢
    simp_all [likeMatch]

/-- The pattern `p%` LIKE-matches any string that literally extends `p`;
this is what makes the find-or-create of `copy_workflow` reuse its own
clone on a repeated call. -/
theorem likeMatch_append_percent (p t : List Char) :
    likeMatch (p ++ ['%']) (p ++ t) = true := by
  induction p generalizing t with
  | nil => simpa using likeMatch_percent_any t
  | cons c p ih =>
    by_cases hc : c = '%'
    · subst hc
      show likeMatch ('%' :: (p ++ ['%'])) ('%' :: (p ++ t)) = true
      simp only [likeMatch, if_pos, likeSkip]
      have h2 : likeSkip (likeMatch (p ++ ['%'])) (p ++ t) = true :=
        likeSkip_of_apply _ _ (ih t)
      simp [h2]
    · show likeMatch (c :: (p ++ ['%'])) (c :: (p ++ t)) = true
      simp [likeMatch, hc, ih t]

/-- The stripped workflow name is a literal prefix of the original name. -/
theorem strip_git_version_is_take (n : String) :
    ∃ t, n.data = (strip_git_version n).data ++ t := by
  unfold strip_git_version
  cases h : reSearchGitVersion n.data with
  | none => exact ⟨[], by simp⟩
  | some i => exact ⟨n.data.drop i, by simp⟩

/-- Unfolding of `pathMemB` into an existential. -/
theorem pathMemB_iff (t : List AFile) (s n : String) :
    pathMemB t s n = true ↔ ∃ g ∈ t, g.stream = s ∧ g.name = n := by
  simp [pathMemB, List.any_eq_true]

/-- A member's own path is present. -/
theorem pathMemB_of_mem {t : List AFile} {f : AFile} (h : f ∈ t) :
    pathMemB t f.stream f.name = true :=
  (pathMemB_iff t f.stream f.name).2 ⟨f, h, rfl, rfl⟩

/-- Everything in the result of one copy step is either an old target file
or the copied file itself. -/
theorem copyOneFile_mem {t : List AFile} {f g : AFile} {ov : Bool}
    (h : g ∈ copyOneFile t f ov) : g ∈ t ∨ g = f := by
  unfold copyOneFile at h
  split at h
  · split at h
    · rcases List.mem_map.1 h with ⟨g0, hg0, hmap⟩
      by_cases hs : g0.stream = f.stream ∧ g0.name = f.name
      · rw [if_pos hs] at hmap
        exact Or.inr hmap.symm
      · rw [if_neg hs] at hmap
        exact Or.inl (hmap ▸ hg0)
    · exact Or.inl h
  · rcases List.mem_append.1 h with h | h
    · exact Or.inl h
    · exact Or.inr (List.mem_singleton.1 h)

/-- `pathMemB` on a cons. -/
theorem pathMemB_cons (g : AFile) (t : List AFile) (s n : String) :
    pathMemB (g :: t) s n = ((g.stream = s && g.name = n) || pathMemB t s n) := rfl

/-- `pathMemB` on an append. -/
theorem pathMemB_append (t u : List AFile) (s n : String) :
    pathMemB (t ++ u) s n = (pathMemB t s n || pathMemB u s n) := by
  simp [pathMemB, List.any_append]

/-- The overwrite replacement map of `copyOneFile` keeps exactly the same
paths occupied. -/
theorem pathMemB_overwrite_map (t : List AFile) (f : AFile) (s n : String) :
    pathMemB (t.map (fun g => if g.stream = f.stream ∧ g.name = f.name then f else g)) s n
      = pathMemB t s n := by
  induction t with
  | nil => rfl
  | cons g t ih =>
    by_cases hcond : g.stream = f.stream ∧ g.name = f.name
    · rw [List.map_cons, if_pos hcond, pathMemB_cons, pathMemB_cons, ih,
        ← hcond.1, ← hcond.2]
    · rw [List.map_cons, if_neg hcond, pathMemB_cons, pathMemB_cons, ih]

/-- One copy step never removes a path from the target. -/
theorem copyOneFile_path_mono {t : List AFile} {f : AFile} {ov : Bool} {s n : String}
    (h : pathMemB t s n = true) : pathMemB (copyOneFile t f ov) s n = true := by
  unfold copyOneFile
  by_cases hp : pathMemB t f.stream f.name
  · cases ov
    · simpa [hp] using h
    · simpa [hp, pathMemB_overwrite_map] using h
  · simp [hp, pathMemB_append, h]

/-- After one copy step the copied file's path is present in the target. -/
theorem copyOneFile_path_self (t : List AFile) (f : AFile) (ov : Bool) :
    pathMemB (copyOneFile t f ov) f.stream f.name = true := by
  unfold copyOneFile
  by_cases hp : pathMemB t f.stream f.name
  · cases ov
    · simp [hp]
    · simp [hp, pathMemB_overwrite_map]
  · simp [hp, pathMemB_append, pathMemB_cons]

/-- With `overwrite = false`, copying onto an occupied path is the swallowed
`IOError`: the target is unchanged. -/
theorem copyOneFile_noop {t : List AFile} {f : AFile}
    (h : pathMemB t f.stream f.name = true) : copyOneFile t f false = t := by
  unfold copyOneFile
  rw [if_pos h]
  rfl

/-- Everything in the bulk-copy result is either an old target file or a
non-reserved source file. -/
theorem copy_files_mem {source : List AFile} {target : List AFile} {ov : Bool}
    {g : AFile} (h : g ∈ copy_files_from_source_dest_collection source target ov) :
    g ∈ target ∨
      (g ∈ source ∧ g.name ≠ "cwl.input.json" ∧ g.name ≠ "cwl.output.json") := by
  induction source generalizing target with
  | nil => exact Or.inl h
  | cons f rest ih =>
    rw [copy_files_from_source_dest_collection] at h
    by_cases hr : f.name = "cwl.input.json" ∨ f.name = "cwl.output.json"
    · rw [if_pos hr] at h
      rcases ih h with hg | hg
      · exact Or.inl hg
      · exact Or.inr ⟨List.mem_cons_of_mem _ hg.1, hg.2⟩
    · rw [if_neg hr] at h
      rcases ih h with hg | hg
      · rcases copyOneFile_mem hg with h1 | h1
        · exact Or.inl h1
        · subst h1
          exact Or.inr ⟨List.mem_cons_self _ _, not_or.1 hr⟩
      · exact Or.inr ⟨List.mem_cons_of_mem _ hg.1, hg.2⟩

/-- The bulk copy never removes a path from the target. -/
theorem copy_files_path_mono {source target : List AFile} {ov : Bool} {s n : String}
    (h : pathMemB target s n = true) :
    pathMemB (copy_files_from_source_dest_collection source target ov) s n = true := by
  induction source generalizing target with
  | nil => exact h
  | cons f rest ih =>
    rw [copy_files_from_source_dest_collection]
    by_cases hr : f.name = "cwl.input.json" ∨ f.name = "cwl.output.json"
    · rw [if_pos hr]
      exact ih h
    · rw [if_neg hr]
      exact ih (copyOneFile_path_mono h)

/-- Every non-reserved source file's path is occupied in the target after
the bulk copy. -/
theorem copy_files_path_src {source target : List AFile} {ov : Bool} {f : AFile}
    (hf : f ∈ source) (h1 : f.name ≠ "cwl.input.json") (h2 : f.name ≠ "cwl.output.json") :
    pathMemB (copy_files_from_source_dest_collection source target ov) f.stream f.name
      = true := by
  induction source generalizing target with
  | nil => exact absurd hf (List.not_mem_nil f)
  | cons g rest ih =>
    rw [copy_files_from_source_dest_collection]
    rcases List.mem_cons.1 hf with hfg | hfr
    · subst hfg
      rw [if_neg (by simp [h1, h2])]
      exact copy_files_path_mono (copyOneFile_path_self target f ov)
    · by_cases hr : g.name = "cwl.input.json" ∨ g.name = "cwl.output.json"
      · rw [if_pos hr]
        exact ih hfr
      · rw [if_neg hr]
        exact ih hfr

/-- When every non-reserved source path is already occupied in the target,
the bulk copy with `overwrite = false` changes nothing. -/
theorem copy_files_stable {source target : List AFile}
    (h : ∀ f ∈ source, f.name ≠ "cwl.input.json" → f.name ≠ "cwl.output.json" →
      pathMemB target f.stream f.name = true) :
    copy_files_from_source_dest_collection source target false = target := by
  induction source with
  | nil => rfl
  | cons f rest ih =>
    rw [copy_files_from_source_dest_collection]
    by_cases hr : f.name = "cwl.input.json" ∨ f.name = "cwl.output.json"
    · rw [if_pos hr]
      exact ih (fun g hg => h g (List.mem_cons_of_mem _ hg))
    · rw [if_neg hr]
      rw [copyOneFile_noop (h f (List.mem_cons_self _ _) (not_or.1 hr).1 (not_or.1 hr).2)]
      exact ih (fun g hg => h g (List.mem_cons_of_mem _ hg))

/-- Running the bulk copy a second time from the same source is a no-op. -/
theorem copy_files_idem (source target : List AFile) :
    copy_files_from_source_dest_collection source
        (copy_files_from_source_dest_collection source target false) false
      = copy_files_from_source_dest_collection source target false :=
  copy_files_stable (fun _ hf h1 h2 => copy_files_path_src hf h1 h2)

/-- `copyFilesInState` touches only the `files` component. -/
theorem copyFilesInState_collections (st : ApiState) (a b : String) :
    (copyFilesInState st a b).collections = st.collections := rfl

/-- `copyFilesInState` touches only the `files` component. -/
theorem copyFilesInState_workflows (st : ApiState) (a b : String) :
    (copyFilesInState st a b).workflows = st.workflows := rfl

/-- `copyFilesInState` touches only the `files` component. -/
theorem copyFilesInState_fresh (st : ApiState) (a b : String) :
    (copyFilesInState st a b).fresh = st.fresh := rfl

/-- Repeating the same collection-to-collection copy is a no-op on the
whole state. -/
theorem copyFilesInState_idem (st : ApiState) (a b : String) :
    copyFilesInState (copyFilesInState st a b) a b = copyFilesInState st a b := by
  unfold copyFilesInState
  simp only []
  congr 1
  funext u
  by_cases hu : u = b
  · subst hu
    by_cases hab : a = u
    · subst hab
      simp only [if_pos rfl]
      exact copy_files_stable (fun f hf _ _ => pathMemB_of_mem hf)
    · simp only [if_pos rfl, if_neg hab]
      exact copy_files_idem _ _
  · simp [hu]

/-- The head of a list survives appending on the right. -/
theorem head?_append_some {α : Type} {l m : List α} {a : α} (h : l.head? = some a) :
    (l ++ m).head? = some a := by
  cases l <;> simp_all

/-- Calling `copy_folder` twice with the same arguments: the second call
changes nothing and returns the same record, and the first call appends at
most one collection — owned by the destination and named after the folder's
first path segment. -/
theorem copy_folder_calls (st : ApiState) (ref : Project) (folder : String)
    (dest : Project) :
    copy_folder (copy_folder st ref folder dest).1 ref folder dest
        = copy_folder st ref folder dest
    ∧ ((copy_folder st ref folder dest).1.collections = st.collections
       ∨ ∃ c, (copy_folder st ref folder dest).1.collections = st.collections ++ [c]
           ∧ c.owner_uuid = dest.uuid ∧ c.name = folderCollectionName folder) := by
  cases h1 : (listCollections st ref.uuid (folderCollectionName folder)).head? with
  | none =>
    have e1 : copy_folder st ref folder dest = (st, none) := by
      simp only [copy_folder, h1]
    rw [e1]
    exact ⟨e1, Or.inl rfl⟩
  | some rc =>
    cases h2 : (listCollections st dest.uuid (folderCollectionName folder)).head? with
    | some dc =>
      have e1 : copy_folder st ref folder dest
          = (copyFilesInState st rc.uuid dc.uuid, some dc) := by
        simp only [copy_folder, h1, h2]
      have h1' : (listCollections (copyFilesInState st rc.uuid dc.uuid) ref.uuid
          (folderCollectionName folder)).head? = some rc := h1
      have h2' : (listCollections (copyFilesInState st rc.uuid dc.uuid) dest.uuid
          (folderCollectionName folder)).head? = some dc := h2
      have e2 : copy_folder (copyFilesInState st rc.uuid dc.uuid) ref folder dest
          = (copyFilesInState (copyFilesInState st rc.uuid dc.uuid) rc.uuid dc.uuid,
             some dc) := by
        simp only [copy_folder, h1', h2']
      rw [e1]
      refine ⟨?_, Or.inl rfl⟩
      rw [e2, copyFilesInState_idem]
    | none =>
      set c0 : Collection :=
        { uuid := "col-" ++ toString st.fresh
          owner_uuid := dest.uuid
          name := folderCollectionName folder
          description := rc.description
          portable_data_hash := "pdh-" ++ toString st.fresh } with hc0
      set st1 : ApiState :=
        { st with collections := st.collections ++ [c0], fresh := st.fresh + 1 } with hst1
      have e1 : copy_folder st ref folder dest
          = (copyFilesInState st1 rc.uuid c0.uuid, some c0) := by
        simp only [copy_folder, h1, h2, createCollection]
      have h1' : (listCollections (copyFilesInState st1 rc.uuid c0.uuid) ref.uuid
          (folderCollectionName folder)).head? = some rc := by
        show ((st.collections ++ [c0]).filter _).head? = some rc
        rw [List.filter_append]
        exact head?_append_some h1
      have h2' : (listCollections (copyFilesInState st1 rc.uuid c0.uuid) dest.uuid
          (folderCollectionName folder)).head? = some c0 := by
        show ((st.collections ++ [c0]).filter _).head? = some c0
        rw [List.filter_append]
        have hnil : listCollections st dest.uuid (folderCollectionName folder) = [] :=
          List.head?_eq_none_iff.1 h2
        rw [show (st.collections.filter
            (fun c => c.owner_uuid == dest.uuid && c.name == folderCollectionName folder))
            = [] from hnil]
        simp [hc0]
      have e2 : copy_folder (copyFilesInState st1 rc.uuid c0.uuid) ref folder dest
          = (copyFilesInState (copyFilesInState st1 rc.uuid c0.uuid) rc.uuid c0.uuid,
             some c0) := by
        simp only [copy_folder, h1', h2']
      rw [e1]
      constructor
      · rw [e2, copyFilesInState_idem]
      · exact Or.inr ⟨c0, rfl, rfl, rfl⟩

/-- Calling `copy_reference_data` twice with the same arguments: the second
call changes nothing, and the first call appends at most one collection,
owned by the destination. -/
theorem copy_reference_data_calls (st : ApiState) (ref dest : Project) :
    copy_reference_data (copy_reference_data st ref dest) ref dest
        = copy_reference_data st ref dest
    ∧ ((copy_reference_data st ref dest).collections = st.collections
       ∨ ∃ c, (copy_reference_data st ref dest).collections = st.collections ++ [c]
           ∧ c.owner_uuid = dest.uuid) := by
  cases h1 : (listCollections st ref.uuid "reference_input").head? with
  | none =>
    have e1 : copy_reference_data st ref dest = st := by
      simp only [copy_reference_data, h1]
    rw [e1]
    exact ⟨e1, Or.inl rfl⟩
  | some rc =>
    cases h2 : (listCollections st dest.uuid rc.name).head? with
    | some dc =>
      have e1 : copy_reference_data st ref dest
          = copyFilesInState st rc.uuid dc.uuid := by
        simp only [copy_reference_data, h1, h2]
      have h1' : (listCollections (copyFilesInState st rc.uuid dc.uuid) ref.uuid
          "reference_input").head? = some rc := h1
      have h2' : (listCollections (copyFilesInState st rc.uuid dc.uuid) dest.uuid
          rc.name).head? = some dc := h2
      have e2 : copy_reference_data (copyFilesInState st rc.uuid dc.uuid) ref dest
          = copyFilesInState (copyFilesInState st rc.uuid dc.uuid) rc.uuid dc.uuid := by
        simp only [copy_reference_data, h1', h2']
      rw [e1]
      refine ⟨?_, Or.inl rfl⟩
      rw [e2, copyFilesInState_idem]
    | none =>
      set c0 : Collection :=
        { uuid := "col-" ++ toString st.fresh
          owner_uuid := dest.uuid
          name := rc.name
          description := rc.description
          portable_data_hash := "pdh-" ++ toString st.fresh } with hc0
      set st1 : ApiState :=
        { st with collections := st.collections ++ [c0], fresh := st.fresh + 1 } with hst1
      have e1 : copy_reference_data st ref dest
          = copyFilesInState st1 rc.uuid c0.uuid := by
        simp only [copy_reference_data, h1, h2, createCollection]
      have h1' : (listCollections (copyFilesInState st1 rc.uuid c0.uuid) ref.uuid
          "reference_input").head? = some rc := by
        show ((st.collections ++ [c0]).filter _).head? = some rc
        rw [List.filter_append]
        exact head?_append_some h1
      have h2' : (listCollections (copyFilesInState st1 rc.uuid c0.uuid) dest.uuid
          rc.name).head? = some c0 := by
        show ((st.collections ++ [c0]).filter _).head? = some c0
        rw [List.filter_append]
        have hnil : listCollections st dest.uuid rc.name = [] :=
          List.head?_eq_none_iff.1 h2
        rw [show (st.collections.filter
            (fun c => c.owner_uuid == dest.uuid && c.name == rc.name))
            = [] from hnil]
        simp [hc0]
      have e2 : copy_reference_data (copyFilesInState st1 rc.uuid c0.uuid) ref dest
          = copyFilesInState (copyFilesInState st1 rc.uuid c0.uuid) rc.uuid c0.uuid := by
        simp only [copy_reference_data, h1', h2']
      rw [e1]
      constructor
      · rw [e2, copyFilesInState_idem]
      · exact Or.inr ⟨c0, rfl, rfl⟩

/-- Calling `copy_workflow` twice with the same arguments: the second call
changes nothing and returns the same record, and the first call appends at
most one workflow, owned by the destination. -/
theorem copy_workflow_calls (st : ApiState) (src : String) (dest : Project) :
    copy_workflow (copy_workflow st src dest).1 src dest = copy_workflow st src dest
    ∧ ((copy_workflow st src dest).1.workflows = st.workflows
       ∨ ∃ w, (copy_workflow st src dest).1.workflows = st.workflows ++ [w]
           ∧ w.owner_uuid = dest.uuid) := by
  cases h1 : fetchWorkflow st src with
  | none =>
    have e1 : copy_workflow st src dest = (st, none) := by
      simp only [copy_workflow, h1]
    rw [e1]
    exact ⟨e1, Or.inl rfl⟩
  | some wf =>
    cases h2 : (destWorkflowMatches st dest (strip_git_version wf.name)).head? with
    | some w =>
      have e1 : copy_workflow st src dest = (st, some w) := by
        simp only [copy_workflow, h1, h2]
      rw [e1]
      exact ⟨e1, Or.inl rfl⟩
    | none =>
      set cw : Workflow :=
        { uuid := "wf-" ++ toString st.fresh
          owner_uuid := dest.uuid
          name := wf.name
          definition := wf.definition } with hcw
      set st1 : ApiState :=
        { st with workflows := st.workflows ++ [cw], fresh := st.fresh + 1 } with hst1
      have e1 : copy_workflow st src dest = (st1, some cw) := by
        simp only [copy_workflow, h1, h2, createWorkflow]
      have h1' : fetchWorkflow st1 src = some wf := by
        show ((st.workflows ++ [cw]).find? _) = some wf
        rw [List.find?_append]
        unfold fetchWorkflow at h1
        rw [h1]
        rfl
      have h2' : (destWorkflowMatches st1 dest (strip_git_version wf.name)).head?
          = some cw := by
        show ((st.workflows ++ [cw]).filter _).head? = some cw
        rw [List.filter_append]
        have hnil : destWorkflowMatches st dest (strip_git_version wf.name) = [] :=
          List.head?_eq_none_iff.1 h2
        rw [show (st.workflows.filter (fun w0 => w0.owner_uuid == dest.uuid &&
            likeMatch ((strip_git_version wf.name).data ++ ['%']) w0.name.data))
            = [] from hnil]
        obtain ⟨t, ht⟩ := strip_git_version_is_take wf.name
        simp [hcw, ht, likeMatch_append_percent]
      have e2 : copy_workflow st1 src dest = (st1, some cw) := by
        simp only [copy_workflow, h1', h2']
      rw [e1]
      constructor
      · exact e2
      · exact Or.inr ⟨cw, rfl, rfl⟩

/-- The `copy_workflows` loop either finds every name already present, or
stops at the first missing name with the `AttributeError` of the
`dict.append` call; the state is unchanged either way. -/
theorem copyWorkflowsLoop_spec (st : ApiState) (dp : Project) (names : List String)
    (l : List Workflow) :
    (copyWorkflowsLoop st dp names l = (st, Except.ok ()) ∧ ∀ w ∈ l, w.name ∈ names)
    ∨ (∃ w ∈ l, w.name ∉ names ∧
        copyWorkflowsLoop st dp names l =
          (st, Except.error "AttributeError: dict object has no attribute append")) := by
  induction l with
  | nil => exact Or.inl ⟨rfl, by simp⟩
  | cons w rest ih =>
    by_cases hw : w.name ∈ names
    · have estep : copyWorkflowsLoop st dp names (w :: rest)
          = copyWorkflowsLoop st dp names rest := by
        simp only [copyWorkflowsLoop, if_pos hw]
      rcases ih with ⟨heq, hall⟩ | ⟨w0, hmem, hname, heq⟩
      · refine Or.inl ⟨estep.trans heq, ?_⟩
        intro x hx
        rcases List.mem_cons.1 hx with hx | hx
        · exact hx ▸ hw
        · exact hall x hx
      · exact Or.inr ⟨w0, List.mem_cons_of_mem _ hmem, hname, estep.trans heq⟩
    · refine Or.inr ⟨w, List.mem_cons_self _ _, hw, ?_⟩
      simp only [copyWorkflowsLoop, if_neg hw]

/-- One `copy_workflows` invocation satisfies `copyWorkflowsCallSpec`. -/
theorem copy_workflows_call (st : ApiState) (ref dest : Project) :
    copyWorkflowsCallSpec st ref dest (copy_workflows st ref dest) := by
  rcases copyWorkflowsLoop_spec st dest
      ((listWorkflowsByOwner st dest.uuid).map (fun w => w.name))
      (listWorkflowsByOwner st ref.uuid) with ⟨heq, hall⟩ | ⟨w0, hmem, hname, heq⟩
  · refine ⟨?_, Or.inl ⟨?_, ?_⟩⟩
    · simp only [copy_workflows, heq]
    · simp only [copy_workflows, heq]
    · intro w hw
      simpa using hall w hw
  · refine ⟨?_, Or.inr ⟨?_, w0, hmem, ?_⟩⟩
    · simp only [copy_workflows, heq]
    · simp only [copy_workflows, heq]
    · simpa using hname

/-- C2: for every execution record with exit code 0, `get_task_state`
returns Complete regardless of the state field — in particular for
`{exit_code: 0, state: "Running"}` — and the exit-code-1 check also precedes
every state check. -/
theorem c2_exit_code_checked_first :
    (∀ c : Container, c.exit_code = some 0 → get_task_state c = Except.ok "Complete")
    ∧ (∀ s : String, get_task_state ⟨some 1, s⟩ = Except.ok "Failed")
    ∧ get_task_state ⟨some 0, "Running"⟩ = Except.ok "Complete" := by
  refine ⟨fun c h => ?_, fun s => ?_, rfl⟩
  · simp [get_task_state, h]
  · simp [get_task_state]

/-- Witness for C2 at a concrete record. -/
theorem c2_witness : get_task_state ⟨some 0, "Cancelled"⟩ = Except.ok "Complete" :=
  c2_exit_code_checked_first.1 ⟨some 0, "Cancelled"⟩ rfl

/-- C8: an execution record whose exit code is neither 0 nor 1 and whose
state is outside Queued/Locked/Running/Cancelled makes `get_task_state`
raise, rather than return a state or a null result. -/
theorem c8_unknown_state_raises (c : Container) (h0 : c.exit_code ≠ some 0)
    (h1 : c.exit_code ≠ some 1) (hr : c.state ≠ "Running") (hc : c.state ≠ "Cancelled")
    (hl : c.state ≠ "Locked") (hq : c.state ≠ "Queued") :
    get_task_state c = Except.error ("TODO: Unknown task state: " ++ c.state) := by
  simp [get_task_state, h0, h1, hr, hc, hl, hq]

/-- Witness for C8 at a concrete record. -/
theorem c8_witness :
    get_task_state ⟨some 2, "Weird"⟩ = Except.error ("TODO: Unknown task state: " ++ "Weird") :=
  c8_unknown_state_raises ⟨some 2, "Weird"⟩ (by decide) (by decide) (by decide)
    (by decide) (by decide) (by decide)

/-- C5: on runner success the task carries the last non-empty output line as
its submission identifier and a null execution record; on a non-zero runner
exit or an I/O failure the result is a null task and no error escapes. -/
theorem c5_submit_task_contract :
    (∀ output uuid,
      ((pySplitChar output '\n').filter (fun l => l ≠ "")).getLast? = some uuid →
      submit_task (RunnerResult.ok output)
        = Except.ok (some ⟨JVal.obj [("uuid", JVal.str uuid)], JVal.null⟩))
    ∧ (∀ rc out, submit_task (RunnerResult.calledProcessError rc out) = Except.ok none)
    ∧ (∀ msg, submit_task (RunnerResult.ioError msg) = Except.ok none) := by
  refine ⟨fun out u h => ?_, fun _ _ => rfl, fun _ => rfl⟩
  simp only [submit_task]
  rw [h]

/-- Witness for C5 at a concrete runner output and a concrete exit-1. -/
theorem c5_witness :
    submit_task (RunnerResult.ok "INFO submitting\nzzzz-xvhdp-000000000000001\n")
      = Except.ok (some ⟨JVal.obj [("uuid", JVal.str "zzzz-xvhdp-000000000000001")],
          JVal.null⟩)
    ∧ submit_task (RunnerResult.calledProcessError 1 "boom") = Except.ok none :=
  ⟨c5_submit_task_contract.1 _ _ rfl, c5_submit_task_contract.2.1 1 "boom"⟩

/-- C9: the task handle round-trips through `to_dict`/`from_dict`, and the
JSON decoder turns exactly the mappings holding both keys into tasks while
returning every other mapping unchanged. -/
theorem c9_task_roundtrip_decoder :
    (∀ t : ArvadosTask, ArvadosTask.from_dict (ArvadosTask.to_dict t) = some t)
    ∧ (∀ obj cr c, obj.lookup "container_request" = some cr →
        obj.lookup "container" = some c → arvados_task_decoder obj = Sum.inl ⟨cr, c⟩)
    ∧ (∀ obj, obj.lookup "container_request" = none ∨ obj.lookup "container" = none →
        arvados_task_decoder obj = Sum.inr obj) := by
  refine ⟨fun t => ?_, fun obj cr c h1 h2 => ?_, fun obj h => ?_⟩
  · cases t
    rfl
  · simp [arvados_task_decoder, h1, h2]
  · rcases h with h | h
    · simp [arvados_task_decoder, h]
    · unfold arvados_task_decoder
      cases hcr : obj.lookup "container_request"
      · rfl
      · rw [h]

/-- Witness for C9 at concrete mappings. -/
theorem c9_witness :
    ArvadosTask.from_dict (ArvadosTask.to_dict ⟨JVal.null, JVal.null⟩)
      = some ⟨JVal.null, JVal.null⟩
    ∧ arvados_task_decoder [("container_request", JVal.null), ("container", JVal.null)]
      = Sum.inl ⟨JVal.null, JVal.null⟩
    ∧ arvados_task_decoder [("other", JVal.null)] = Sum.inr [("other", JVal.null)] :=
  ⟨c9_task_roundtrip_decoder.1 _, c9_task_roundtrip_decoder.2.1 _ _ _ rfl rfl,
   c9_task_roundtrip_decoder.2.2 _ (Or.inl rfl)⟩

/-- C10: the pass-through of `get_file_id` is a literal prefix check on
`http` and `keep` — no scheme separator needed, and no collection lookup is
performed (the result is the same for every state and project). -/
theorem c10_passthrough_is_literal :
    (∀ st (p : Project) path, pyStartswith path "http" = true →
      get_file_id st p path = Except.ok path)
    ∧ (∀ st (p : Project) path, pyStartswith path "keep" = true →
      get_file_id st p path = Except.ok path)
    ∧ (∀ st (p : Project), get_file_id st p "keepsake/data.txt"
        = Except.ok "keepsake/data.txt")
    ∧ (∀ st (p : Project), get_file_id st p "httpdata/run.txt"
        = Except.ok "httpdata/run.txt") := by
  refine ⟨fun st p path h => ?_, fun st p path h => ?_, fun st p => rfl, fun st p => rfl⟩
  · simp [get_file_id, h]
  · simp [get_file_id, h]

/-- Witness for C10 at a concrete path. -/
theorem c10_witness :
    get_file_id ⟨[], [], fun _ => [], 0⟩ ⟨"P"⟩ "keep:1234/x" = Except.ok "keep:1234/x" :=
  c10_passthrough_is_literal.2.1 _ _ _ rfl

/-- C6: `get_file_id` passes through absolute content references, builds a
`keep:<hash>/<rest>` reference from the first path segment's collection, and
raises an error naming both the collection and the project when the
collection is absent. -/
theorem c6_get_file_id_resolution :
    (∀ st (p : Project), get_file_id st p "http://example/x"
        = Except.ok "http://example/x")
    ∧ (∀ st (p : Project) path cn rest c,
        pyStartswith path "http" = false → pyStartswith path "keep" = false →
        pySplitChar path '/' = "" :: cn :: rest →
        (listCollections st p.uuid cn).head? = some c →
        get_file_id st p path
          = Except.ok ("keep:" ++ c.portable_data_hash ++ "/" ++ pyJoin "/" rest))
    ∧ (∀ st (p : Project) path cn rest,
        pyStartswith path "http" = false → pyStartswith path "keep" = false →
        pySplitChar path '/' = "" :: cn :: rest →
        (listCollections st p.uuid cn).head? = none →
        get_file_id st p path
          = Except.error ("Collection " ++ cn ++ " not found in project " ++ p.uuid)) := by
  refine ⟨fun st p => rfl, fun st p path cn rest c h1 h2 h3 h4 => ?_,
    fun st p path cn rest h1 h2 h3 h4 => ?_⟩
  · simp [get_file_id, h1, h2, h3, h4]
  · simp [get_file_id, h1, h2, h3, h4]

/-- Witness for C6 at a concrete project layout. -/
theorem c6_witness :
    get_file_id ⟨[⟨"c1", "P", "coll1", "d", "H"⟩], [], fun _ => [], 0⟩ ⟨"P"⟩
        "/coll1/sub/file.txt" = Except.ok "keep:H/sub/file.txt"
    ∧ get_file_id ⟨[⟨"c1", "P", "coll1", "d", "H"⟩], [], fun _ => [], 0⟩ ⟨"P"⟩
        "/nope/file.txt" = Except.error "Collection nope not found in project P" :=
  ⟨c6_get_file_id_resolution.2.1 _ _ _ "coll1" ["sub", "file.txt"]
      ⟨"c1", "P", "coll1", "d", "H"⟩ rfl rfl rfl rfl,
   c6_get_file_id_resolution.2.2 _ _ _ "nope" ["file.txt"] rfl rfl rfl rfl⟩

/-- C3 counterexample: a destination that already holds `cwl.input.json`
still holds it after the bulk copy (here from an empty source), so the
reserved names can appear in the destination afterward. -/
theorem c3_counterexample :
    ∃ g ∈ copy_files_from_source_dest_collection []
        [⟨".", "cwl.input.json", "x"⟩] false,
      g.name = "cwl.input.json" :=
  ⟨⟨".", "cwl.input.json", "x"⟩, by simp [copy_files_from_source_dest_collection], rfl⟩

/-- C3 (amended): the bulk copy never copies the two reserved names — a
reserved name appears in the destination afterward only if it was already
there — and every other source file has a file at its full stream path in
the destination afterward. -/
theorem c3_reserved_names_never_copied (source target : List AFile) (overwrite : Bool) :
    (∀ g ∈ copy_files_from_source_dest_collection source target overwrite,
       g.name = "cwl.input.json" ∨ g.name = "cwl.output.json" → g ∈ target)
    ∧ (∀ f ∈ source, f.name ≠ "cwl.input.json" → f.name ≠ "cwl.output.json" →
       ∃ g ∈ copy_files_from_source_dest_collection source target overwrite,
         g.stream = f.stream ∧ g.name = f.name) := by
  constructor
  · intro g hg hres
    rcases copy_files_mem hg with h | h
    · exact h
    · rcases hres with hr | hr
      · exact absurd hr h.2.1
      · exact absurd hr h.2.2
  · intro f hf h1 h2
    have hp := @copy_files_path_src source target overwrite f hf h1 h2
    rcases (pathMemB_iff _ _ _).1 hp with ⟨g, hg, hs, hn⟩
    exact ⟨g, hg, hs, hn⟩

/-- Witness for C3 at a concrete copy. -/
theorem c3_witness :
    ∃ g ∈ copy_files_from_source_dest_collection [⟨".", "a.txt", "data"⟩] [] false,
      g.stream = "." ∧ g.name = "a.txt" :=
  (c3_reserved_names_never_copied [⟨".", "a.txt", "data"⟩] [] false).2
    ⟨".", "a.txt", "data"⟩ (by simp) (by decide) (by decide)

/-- C7 counterexample: the source workflow name `A_B (h)` is stripped to
`A_B`; the only destination workflow `AxB` does not start with `A_B`, yet
`copy_workflow` returns it unchanged and creates nothing, because the
search is a SQL LIKE match (`_` matches any one character), not a literal
prefix match. -/
theorem c7_counterexample :
    copy_workflow
        ⟨[], [⟨"w1", "P1", "A_B (h)", "d1"⟩, ⟨"d9", "P2", "AxB", "d2"⟩], fun _ => [], 0⟩
        "w1" ⟨"P2"⟩
      = (⟨[], [⟨"w1", "P1", "A_B (h)", "d1"⟩, ⟨"d9", "P2", "AxB", "d2"⟩], fun _ => [], 0⟩,
         some ⟨"d9", "P2", "AxB", "d2"⟩)
    ∧ pyStartswith "AxB" (strip_git_version "A_B (h)") = false :=
  ⟨rfl, rfl⟩

/-- C7 (amended): `copy_workflow` strips the trailing version annotation
(`"Align (a1b2c3)"` becomes `"Align"`), returns null when the fetch by id
fails, returns the first destination workflow whose name matches the SQL
LIKE pattern `wf_name%` unchanged while creating nothing, and otherwise
clones the workflow (owner reassigned, identifier freshly assigned). -/
theorem c7_copy_workflow_spec :
    strip_git_version "Align (a1b2c3)" = "Align"
    ∧ (∀ st src (dest : Project), fetchWorkflow st src = none →
        copy_workflow st src dest = (st, none))
    ∧ (∀ st src dest wf w, fetchWorkflow st src = some wf →
        (destWorkflowMatches st dest (strip_git_version wf.name)).head? = some w →
        copy_workflow st src dest = (st, some w))
    ∧ (∀ st src (dest : Project) wf, fetchWorkflow st src = some wf →
        destWorkflowMatches st dest (strip_git_version wf.name) = [] →
        copy_workflow st src dest =
          ({ st with
              workflows := st.workflows ++
                [{ uuid := "wf-" ++ toString st.fresh, owner_uuid := dest.uuid,
                   name := wf.name, definition := wf.definition }]
              fresh := st.fresh + 1 },
           some { uuid := "wf-" ++ toString st.fresh, owner_uuid := dest.uuid,
                  name := wf.name, definition := wf.definition })) := by
  refine ⟨rfl, fun st src dest h => by simp only [copy_workflow, h],
    fun st src dest wf w h1 h2 => by simp only [copy_workflow, h1, h2],
    fun st src dest wf h1 h2 => ?_⟩
  have h2' : (destWorkflowMatches st dest (strip_git_version wf.name)).head? = none := by
    rw [h2]
    rfl
  simp only [copy_workflow, h1, h2', createWorkflow]

/-- Witness for C7: a clone into a project with no LIKE-match. -/
theorem c7_witness :
    copy_workflow ⟨[], [⟨"w9", "P1", "Align (a1b2c3)", "D"⟩], fun _ => [], 0⟩ "w9" ⟨"P9"⟩
      = (⟨[], [⟨"w9", "P1", "Align (a1b2c3)", "D"⟩,
               ⟨"wf-0", "P9", "Align (a1b2c3)", "D"⟩], fun _ => [], 1⟩,
         some ⟨"wf-0", "P9", "Align (a1b2c3)", "D"⟩) :=
  c7_copy_workflow_spec.2.2.2
    ⟨[], [⟨"w9", "P1", "Align (a1b2c3)", "D"⟩], fun _ => [], 0⟩ "w9" ⟨"P9"⟩
    ⟨"w9", "P1", "Align (a1b2c3)", "D"⟩ rfl rfl

/-- C1: `copy_workflows` on a reference project with one workflow missing
from the destination raises `AttributeError` (the list response is a
mapping with no `append` method, and the attribute lookup precedes the
evaluation of the `create` argument) with the server state unchanged — no
clone is created and the updated destination list is never returned. -/
theorem c1_copy_workflows_append_crash :
    copy_workflows ⟨[], [⟨"r1", "P1", "A", "defA"⟩], fun _ => [], 0⟩ ⟨"P1"⟩ ⟨"P2"⟩
      = (⟨[], [⟨"r1", "P1", "A", "defA"⟩], fun _ => [], 0⟩,
         Except.error "AttributeError: dict object has no attribute append") :=
  rfl

/-- C4 counterexample: with two reference workflows and an empty
destination, the second invocation of `copy_workflows` raises the
`dict.append` `AttributeError` (before any clone is created) instead of
returning the existing records. -/
theorem c4_counterexample :
    (copy_workflows
        (copy_workflows
          ⟨[], [⟨"r1", "P1", "A", "dA"⟩, ⟨"r2", "P1", "B", "dB"⟩], fun _ => [], 0⟩
          ⟨"P1"⟩ ⟨"P2"⟩).1 ⟨"P1"⟩ ⟨"P2"⟩).2
      = Except.error "AttributeError: dict object has no attribute append" :=
  rfl

/-- C4 (amended): `copy_folder`, `copy_reference_data` and `copy_workflow`
are idempotent by name — one call creates at most one destination-owned
record and a second call with the same inputs changes nothing and returns
the same result — while `copy_workflows` never creates any record at all:
it returns the unchanged destination listing when every reference name is
already present, and otherwise raises the `dict.append` `AttributeError`
before the `create` executes, leaving the state unchanged, so a repeated
invocation behaves identically and never creates a duplicate per name. -/
theorem c4_idempotent_by_name :
    (∀ (st : ApiState) (ref : Project) (folder : String) (dest : Project),
       copy_folder (copy_folder st ref folder dest).1 ref folder dest
           = copy_folder st ref folder dest
       ∧ ((copy_folder st ref folder dest).1.collections = st.collections
          ∨ ∃ c, (copy_folder st ref folder dest).1.collections = st.collections ++ [c]
              ∧ c.owner_uuid = dest.uuid ∧ c.name = folderCollectionName folder))
    ∧ (∀ (st : ApiState) (ref dest : Project),
       copy_reference_data (copy_reference_data st ref dest) ref dest
           = copy_reference_data st ref dest
       ∧ ((copy_reference_data st ref dest).collections = st.collections
          ∨ ∃ c, (copy_reference_data st ref dest).collections = st.collections ++ [c]
              ∧ c.owner_uuid = dest.uuid))
    ∧ (∀ (st : ApiState) (src : String) (dest : Project),
       copy_workflow (copy_workflow st src dest).1 src dest = copy_workflow st src dest
       ∧ ((copy_workflow st src dest).1.workflows = st.workflows
          ∨ ∃ w, (copy_workflow st src dest).1.workflows = st.workflows ++ [w]
              ∧ w.owner_uuid = dest.uuid))
    ∧ (∀ (st : ApiState) (ref dest : Project),
       copyWorkflowsCallSpec st ref dest (copy_workflows st ref dest))
    ∧ (∀ (st : ApiState) (ref dest : Project),
       copy_workflows (copy_workflows st ref dest).1 ref dest
         = copy_workflows st ref dest) := by
  refine ⟨copy_folder_calls, copy_reference_data_calls, copy_workflow_calls,
    fun st ref dest => copy_workflows_call st ref dest,
    fun st ref dest => ?_⟩
  rw [(copy_workflows_call st ref dest).1]

/-- Witness for C4: a second `copy_folder` call at a concrete state reuses
the collection created by the first call, and a second `copy_workflows`
call at a concrete state gives the same result as the first. -/
theorem c4_witness :
    copy_folder
        (copy_folder ⟨[⟨"c1", "P1", "data", "d", "H"⟩], [], fun _ => [], 0⟩
          ⟨"P1"⟩ "/data" ⟨"P2"⟩).1 ⟨"P1"⟩ "/data" ⟨"P2"⟩
      = copy_folder ⟨[⟨"c1", "P1", "data", "d", "H"⟩], [], fun _ => [], 0⟩
          ⟨"P1"⟩ "/data" ⟨"P2"⟩
    ∧ copy_workflows
        (copy_workflows ⟨[], [⟨"r1", "P1", "A", "dA"⟩, ⟨"r2", "P1", "B", "dB"⟩],
          fun _ => [], 0⟩ ⟨"P1"⟩ ⟨"P2"⟩).1 ⟨"P1"⟩ ⟨"P2"⟩
      = copy_workflows ⟨[], [⟨"r1", "P1", "A", "dA"⟩, ⟨"r2", "P1", "B", "dB"⟩],
          fun _ => [], 0⟩ ⟨"P1"⟩ ⟨"P2"⟩ :=
  ⟨(c4_idempotent_by_name.1 ⟨[⟨"c1", "P1", "data", "d", "H"⟩], [], fun _ => [], 0⟩
      ⟨"P1"⟩ "/data" ⟨"P2"⟩).1,
   c4_idempotent_by_name.2.2.2.2
     ⟨[], [⟨"r1", "P1", "A", "dA"⟩, ⟨"r2", "P1", "B", "dB"⟩], fun _ => [], 0⟩
     ⟨"P1"⟩ ⟨"P2"⟩⟩
